import Mathlib

/-!
Verification development for the digital-tape (fita digital) parsing core of
the afr_supervisorio_ciclos repository.  Python source functions are embedded
shallowly: strings become Lean strings (processed as lists of characters),
floats become rationals or reals, datetimes become day counts and second
counts, Python exceptions become Except / Option values, and dictionaries
become association lists or structures with optional fields.
-/
namespace FitaDigital

/-- Whitespace test matching the character class used by Python str.split,
str.strip and regex backslash-s on the ASCII inputs these tapes contain. -/
def pyIsSpace (c : Char) : Bool :=
  c = ' ' || c = '\t' || c = '\n' || c = '\r' || c = '\x0b' || c = '\x0c'

/-- Python str.split() with no separator: split on whitespace runs,
dropping empty fields. -/
def splitWsAux : List Char → List Char → List String
  | [], cur => if cur.isEmpty then [] else [String.mk cur.reverse]
  | c :: cs, cur =>
    if pyIsSpace c then
      if cur.isEmpty then splitWsAux cs [] else String.mk cur.reverse :: splitWsAux cs []
    else splitWsAux cs (c :: cur)

/-- Python str.split() with no separator, on a string. -/
def pySplit (s : String) : List String := splitWsAux s.toList []

/-- Python str.split(sep) for a one-character separator: keeps empty fields. -/
def splitOnChar (sep : Char) : List Char → List (List Char)
  | [] => [[]]
  | c :: cs =>
    if c = sep then [] :: splitOnChar sep cs
    else
      match splitOnChar sep cs with
      | [] => [[c]]
      | g :: gs => (c :: g) :: gs

/-- Python str.strip(): remove leading and trailing whitespace. -/
def pyStrip (s : String) : String :=
  String.mk (((s.toList.dropWhile pyIsSpace).reverse.dropWhile pyIsSpace).reverse)

/-- Does the first list occur at the head of the second list? -/
def startsList : List Char → List Char → Bool
  | [], _ => true
  | _ :: _, [] => false
  | a :: l1, b :: l2 => a = b && startsList l1 l2

/-- Substring occurrence, modelling the Python expression key in label. -/
def containsSub (needle : List Char) : List Char → Bool
  | [] => needle.isEmpty
  | c :: cs => startsList needle (c :: cs) || containsSub needle cs

/-- Python substring test needle in hay on strings. -/
def pyInStr (needle hay : String) : Bool := containsSub needle.toList hay.toList

/-- Python str.startswith on strings. -/
def pyStartsWith (s pre : String) : Bool := startsList pre.toList s.toList

/-- Value of a run of decimal digits (most significant first). -/
def digitsVal (cs : List Char) : Nat :=
  cs.foldl (fun a c => a * 10 + (c.toNat - 48)) 0

/-- Split a character list into its leading digit run and the rest. -/
def spanDigits (cs : List Char) : List Char × List Char :=
  (cs.takeWhile Char.isDigit, cs.dropWhile Char.isDigit)

/-- Day number of a civil date (valid dates, year at least 1); days are
counted consecutively so that adding one day adds one. -/
def daysFromCivil (y m d : Nat) : Nat :=
  let y' := if m ≤ 2 then y - 1 else y
  let era := y' / 400
  let yoe := y' - era * 400
  let mp := (m + 9) % 12
  let doy := (153 * mp + 2) / 5 + d - 1
  let doe := yoe * 365 + yoe / 4 - yoe / 100 + doy
  era * 146097 + doe

/-- Seconds value of a full civil datetime. -/
def dtSecs (y m d h mi s : Nat) : Nat :=
  daysFromCivil y m d * 86400 + (h * 3600 + mi * 60 + s)

/-- The day-rollover loop of replace_date_in_times: walks the remaining
times (already anchored to the base date), adding the running days-elapsed
offset to each entry and bumping the counter whenever an entry would fall
strictly before its predecessor. prev is the previous output entry and d
the current days-elapsed counter. -/
def rolloverTimes : Nat → Nat → List Nat → List Nat
  | _, _, [] => []
  | prev, d, t :: ts =>
    let t1 := t + d * 86400
    if t1 < prev then (t1 + 86400) :: rolloverTimes (t1 + 86400) (d + 1) ts
    else t1 :: rolloverTimes t1 d ts

/-- replace_date_in_times: anchor every time-of-day (seconds) to the base
calendar day, then run the rollover loop over the tail. -/
def replace_date_in_times (baseDay : Nat) (times : List Nat) : List Nat :=
  match times.map (fun t => baseDay * 86400 + t) with
  | [] => []
  | t0 :: ts => t0 :: rolloverTimes t0 0 ts

/-- A one- or two-digit numeric field of strptime, with an upper bound. -/
def parse12 (s : String) (bound : Nat) : Option Nat :=
  let cs := s.toList
  if (cs.length = 1 || cs.length = 2) && cs.all Char.isDigit then
    if digitsVal cs ≤ bound then some (digitsVal cs) else none
  else none

/-- datetime.strptime(t, percentH:percentM:percentS): parse an HH:MM:SS
time of day into seconds. -/
def strptimeHMS (s : String) : Option Nat :=
  match (splitOnChar ':' s.toList).map String.mk with
  | [hh, mm, ss] => do
    let h ← parse12 hh 23
    let m ← parse12 mm 59
    let sec ← parse12 ss 59
    pure (h * 3600 + m * 60 + sec)
  | _ => none

/-- time_to_datetime: parse every HH:MM:SS string, then apply
replace_date_in_times with the header start date as base. -/
def time_to_datetime (times : List String) (y m d : Nat) : Option (List Nat) := do
  let secs ← times.mapM strptimeHMS
  pure (replace_date_in_times (daysFromCivil y m d) secs)

/-- Exponent suffix of a float literal after the e or E: optional sign
then at least one digit. -/
def expTailOk (cs : List Char) : Bool :=
  let cs1 := match cs with
    | '+' :: r => r
    | '-' :: r => r
    | r => r
  !cs1.isEmpty && cs1.all Char.isDigit

/-- Optional exponent part of a float literal. -/
def expPartOk : List Char → Bool
  | [] => true
  | 'e' :: r => expTailOk r
  | 'E' :: r => expTailOk r
  | _ => false

/-- Mantissa with optional fraction and exponent: digits, optionally a dot
and more digits (at least one digit overall), then an optional exponent. -/
def mantExpOk (cs : List Char) : Bool :=
  let (ip, r1) := spanDigits cs
  match r1 with
  | '.' :: r =>
    let (fp, r2) := spanDigits r
    (!ip.isEmpty || !fp.isEmpty) && expPartOk r2
  | _ => !ip.isEmpty && expPartOk r1

/-- Case-insensitive inf, infinity and nan forms accepted by float(). -/
def infNanOk (cs : List Char) : Bool :=
  let l := cs.map Char.toLower
  l = ['i', 'n', 'f'] || l = ['i', 'n', 'f', 'i', 'n', 'i', 't', 'y'] ||
    l = ['n', 'a', 'n']

/-- Model of the Python float(s) acceptance test: surrounding whitespace is
ignored, then an optional sign, then either an inf/nan form or a decimal
mantissa with optional exponent. -/
def pyFloatAccepts (s : String) : Bool :=
  let cs := ((s.toList.dropWhile pyIsSpace).reverse.dropWhile pyIsSpace).reverse
  match cs with
  | [] => false
  | _ =>
    let cs1 := match cs with
      | '+' :: r => r
      | '-' :: r => r
      | r => r
    infNanOk cs1 || mantExpOk cs1

/-- Value of a signed exponent digit string. -/
def expVal : List Char → ℤ
  | '-' :: r => -(digitsVal r : ℤ)
  | '+' :: r => (digitsVal r : ℤ)
  | r => (digitsVal r : ℤ)

/-- Rational value of a finite decimal float token (sign, digits, optional
fraction, optional exponent).  Non-finite float values (inf, nan) lie
outside the rational value domain and are not produced by the line
grammars proved about below. -/
def qOfTok (s : String) : ℚ :=
  let cs0 := s.toList
  let sgn : ℚ := match cs0 with
    | '-' :: _ => -1
    | _ => 1
  let cs := match cs0 with
    | '-' :: r => r
    | '+' :: r => r
    | r => r
  let (ip, r1) := spanDigits cs
  let (fp, r2) := match r1 with
    | '.' :: r => spanDigits r
    | _ => ([], r1)
  let e : ℤ := match r2 with
    | 'e' :: r => expVal r
    | 'E' :: r => expVal r
    | _ => 0
  sgn * ((digitsVal (ip ++ fp) : ℚ) / (10 : ℚ) ^ fp.length) * (10 : ℚ) ^ e

/-- Parsed body under construction: column names, measurement rows (time
token and numeric values) and phase markers (time token and label), before
the timestamps are rewritten to datetimes. -/
structure BodyRaw where
  header_columns : List String
  data : List (String × List ℚ)
  fase : List (String × String)

/-- Tail of the LAC210 phase regex after the HH:MM group: at least one
whitespace character, then a lazily matched non-empty group of characters
other than newline, with trailing whitespace stripped by the final
whitespace-star-dollar.  Returns the time group and the label group. -/
def lac210Tail (hora : String) (rest : List Char) : Option (String × String) :=
  match rest with
  | [] => none
  | r :: _ =>
    if pyIsSpace r then
      let M := rest.dropWhile pyIsSpace
      if M.isEmpty then
        match (rest.drop 1).reverse.dropWhile (fun c => c = '\n') with
        | [] => none
        | ch :: _ => some (hora, String.mk [ch])
      else
        let G := (M.reverse.dropWhile pyIsSpace).reverse
        if G.contains '\n' then none else some (hora, String.mk G)
    else none

/-- The LAC210 phase regex: optional leading whitespace, a two-digit hour,
a colon, two digit minutes, then the tail above. -/
def lac210Match (line : String) : Option (String × String) :=
  match line.toList.dropWhile pyIsSpace with
  | d1 :: d2 :: c :: d3 :: d4 :: rest =>
    if d1.isDigit && d2.isDigit && c = ':' && d3.isDigit && d4.isDigit then
      lac210Tail (String.mk [d1, d2, c, d3, d4]) rest
    else none
  | _ => none

/-- The Sercon JP LAC210 phase-line processor: when the phase regex
matches, the first whitespace token of the label group is tried as a
float; success means the line is not a phase line and the body is returned
unchanged, failure (or an empty token list) appends the phase marker with
seconds synthesised onto the time. -/
def process_phase_line_lac210 (line : String) (body : BodyRaw) :
    Bool × BodyRaw :=
  match lac210Match line with
  | none => (false, body)
  | some (hora, g2) =>
    match pySplit g2 with
    | t :: _ =>
      if pyFloatAccepts t then (false, body)
      else (true, { body with fase := body.fase ++ [(hora ++ ":00", pyStrip g2)] })
    | [] => (true, { body with fase := body.fase ++ [(hora ++ ":00", pyStrip g2)] })

/-- States of the deterministic automaton equivalent to the AFR13
measurement regex after the time group: expecting whitespace, inside
whitespace, after a minus sign, inside integer digits, after the dot. -/
inductive AfrSt
  | s0
  | s1
  | s2
  | s3
  | s4

/-- Automaton for the repeated whitespace-then-numeric-token groups of the
AFR13 measurement regex, anchored at the end of the line. -/
def afrRun : AfrSt → List Char → Bool
  | st, [] =>
    match st with
    | .s3 => true
    | .s4 => true
    | _ => false
  | .s0, c :: cs => if pyIsSpace c then afrRun .s1 cs else false
  | .s1, c :: cs =>
    if pyIsSpace c then afrRun .s1 cs
    else if c = '-' then afrRun .s2 cs
    else if c.isDigit then afrRun .s3 cs
    else false
  | .s2, c :: cs => if c.isDigit then afrRun .s3 cs else false
  | .s3, c :: cs =>
    if c.isDigit then afrRun .s3 cs
    else if c = '.' then afrRun .s4 cs
    else if pyIsSpace c then afrRun .s1 cs
    else false
  | .s4, c :: cs =>
    if c.isDigit then afrRun .s4 cs
    else if pyIsSpace c then afrRun .s1 cs
    else false

/-- The HH:MM:SS time group of the AFR13 measurement regex; returns the
remaining characters on success. -/
def hhmmssChk : List Char → Option (List Char)
  | d1 :: d2 :: ':' :: d3 :: d4 :: ':' :: d5 :: d6 :: rest =>
    if d1.isDigit && d2.isDigit && d3.isDigit && d4.isDigit &&
        d5.isDigit && d6.isDigit then some rest
    else none
  | _ => none

/-- The full AFR13 measurement regex applied to the stripped line: a time
group followed by one or more whitespace-separated numeric tokens. -/
def afr13Match (line : String) : Bool :=
  match hhmmssChk (pyStrip line).toList with
  | some rest => afrRun .s0 rest
  | none => false

/-- The AFR13 measurement-line processor: when the regex matches, the line
is split on whitespace and appended as a row whose first token is the time
and whose remaining tokens become float values. -/
def afr13_process_body_line (line : String) (body : BodyRaw) : BodyRaw :=
  if afr13Match line then
    match pySplit line with
    | v0 :: toks => { body with data := body.data ++ [(v0, toks.map qOfTok)] }
    | [] => body
  else body

/-- The Sercon TDS measurement-line processor: any line splitting into more
than three whitespace tokens is appended, with seconds synthesised onto
the first token and the rest converted by float(); a failing conversion
raises inside the comprehension and is caught, leaving the body
unchanged. -/
def tds_process_body_line (line : String) (body : BodyRaw) : BodyRaw :=
  let valores := pySplit line
  if 3 < valores.length then
    match valores with
    | v0 :: toks =>
      if toks.all pyFloatAccepts then
        { body with data := body.data ++ [(v0 ++ ":00", toks.map qOfTok)] }
      else body
    | [] => body
  else body

/-- The scanning loop of get_state: the first phase whose label contains a
finalized keyword yields concluido, the first whose label contains an
aborted keyword (checked second within each phase) yields abortado, and a
list without any match yields incompleto. -/
def get_state_loop (fin ab : List String) : List (Nat × String) → String
  | [] => "incompleto"
  | f :: rest =>
    if fin.any (fun k => pyInStr k f.2) then "concluido"
    else if ab.any (fun k => pyInStr k f.2) then "abortado"
    else get_state_loop fin ab rest

/-- get_state: a missing phase list is a structural failure mapped to
erro; otherwise the phases are scanned in file order. -/
def get_state (fin ab : List String) : Option (List (Nat × String)) → String
  | none => "erro"
  | some fases => get_state_loop fin ab fases

/-- get_state of the Sercon JP LAC210 reader with its keyword sets. -/
def get_state_lac210 : Option (List (Nat × String)) → String :=
  get_state ["FIM DE CICLO"] ["CICLO ABORTADO"]

/-- get_state of the Sercon TDS reader with its keyword sets. -/
def get_state_tds : Option (List (Nat × String)) → String :=
  get_state ["FINAL  DE CICLO"] ["CICLO ABORTADO"]

/-- Python percent-02d formatting of an integer. -/
def fmt02 (n : Int) : String :=
  let s := toString n
  if s.length < 2 then "0" ++ s else s

/-- calcular_tempo_entre_fases on an optional phase list (a missing fase
key is the first caught error). -/
def calcular_tempo_entre_fases (body_fase : Option (List (Int × String)))
    (fase_inicio fase_fim : String) : String :=
  match body_fase with
  | none => "Erro: Fases não encontradas no body."
  | some fases =>
    match fases.find? (fun f => f.2 = fase_inicio),
        fases.find? (fun f => f.2 = fase_fim) with
    | some i, some f =>
      let total : Int := f.1 - i.1
      fmt02 (total.fdiv 60) ++ ":" ++ fmt02 (total.emod 60)
    | _, _ =>
      "Erro: Fase(s) \x27" ++ fase_inicio ++ "\x27 ou \x27" ++ fase_fim ++
        "\x27 não encontrada(s)."

/-- A Python header value: either a string or a datetime (seconds). -/
inductive PyV
  | s (v : String)
  | dt (v : Nat)
deriving DecidableEq

/-- Dictionary write (last write wins) on an association list. -/
def setK (h : List (String × PyV)) (k : String) (v : PyV) :
    List (String × PyV) :=
  if h.any (fun p => p.1 = k) then
    h.map (fun p => if p.1 = k then (k, v) else p)
  else h ++ [(k, v)]

/-- Dictionary read on an association list. -/
def getK (h : List (String × PyV)) (k : String) : Option PyV :=
  (h.find? (fun p => p.1 = k)).map Prod.snd

/-- Dictionary membership on an association list. -/
def hasK (h : List (String × PyV)) (k : String) : Bool :=
  h.any (fun p => p.1 = k)

/-- Python str.replace removing every newline character. -/
def rmNl (s : String) : String :=
  String.mk (s.toList.filter (fun c => c ≠ '\n'))

/-- Python str.split(colon). -/
def splitColon (s : String) : List String :=
  (splitOnChar ':' s.toList).map String.mk

/-- Python str.split(dash). -/
def splitDash (s : String) : List String :=
  (splitOnChar '-' s.toList).map String.mk

/-- Python str.split(slash). -/
def splitSlash (s : String) : List String :=
  (splitOnChar '/' s.toList).map String.mk

/-- Two-digit zero padding. -/
def pad2 (n : Nat) : String := if n < 10 then "0" ++ toString n else toString n

/-- Civil date of a day number, inverse of daysFromCivil. -/
def civilFromDays (z : Nat) : Nat × Nat × Nat :=
  let era := z / 146097
  let doe := z % 146097
  let yoe := (doe - doe / 1460 + doe / 36524 - doe / 146096) / 365
  let y := yoe + era * 400
  let doy := doe - (365 * yoe + yoe / 4 - yoe / 100)
  let mp := (5 * doy + 2) / 153
  let d := doy - (153 * mp + 2) / 5 + 1
  let m := if mp < 10 then mp + 3 else mp - 9
  (if m ≤ 2 then y + 1 else y, m, d)

/-- strftime with the day-month-year format on a datetime value. -/
def fmtDMY (v : Nat) : String :=
  let c := civilFromDays (v / 86400)
  pad2 c.2.2 ++ "-" ++ pad2 c.2.1 ++ "-" ++ toString c.1

/-- strftime with the hour-minute-second format on a datetime value. -/
def fmtHMS (v : Nat) : String :=
  let s := v % 86400
  pad2 (s / 3600) ++ ":" ++ pad2 (s % 3600 / 60) ++ ":" ++ pad2 (s % 60)

/-- Attribute access value.strftime(format): only datetime values have the
attribute; on a string it raises AttributeError, which is exactly what the
fallback branch of the TDS header reader hits. -/
def pyStrftime : PyV → String → Except String String
  | .s _, _ => .error "AttributeError: str object has no attribute strftime"
  | .dt v, f => .ok (if f = "%d-%m-%Y" then fmtDMY v else fmtHMS v)

/-- Days of a civil month. -/
def daysInMonth (y m : Nat) : Nat :=
  if m = 2 then
    if y % 4 = 0 && (y % 100 ≠ 0 || y % 400 = 0) then 29 else 28
  else if m = 4 || m = 6 || m = 9 || m = 11 then 30 else 31

/-- A four-digit year field of strptime. -/
def parse4 (s : String) : Option Nat :=
  let cs := s.toList
  if cs.length = 4 && cs.all Char.isDigit then some (digitsVal cs) else none

/-- datetime.strptime(s, percent-d dash percent-m dash percent-Y): parse
and validate a day-month-year date, returning its datetime (seconds at
midnight). -/
def pyStrptimeDMY (s : String) : Except String Nat :=
  match (splitOnChar '-' s.toList).map String.mk with
  | [ds, ms, ys] =>
    match parse12 ds 31, parse12 ms 12, parse4 ys with
    | some d, some m, some y =>
      if 1 ≤ d && 1 ≤ m && d ≤ daysInMonth y m then
        .ok (daysFromCivil y m d * 86400)
      else .error "ValueError"
    | _, _, _ => .error "ValueError"
  | _ => .error "ValueError"

/-- The header-line scan of the TDS read_header: collects the lot, cycle
and water-temperature fields and stops at the first line splitting on
dashes into exactly three parts whose third part is the INICIO DE CICLO
marker, from which the start date and time strings are sliced. -/
def tds_header_loop : List String → List (String × PyV) →
    Except String (List (String × PyV))
  | [], h => .ok h
  | line :: rest, h => do
    let h1 ←
      if pyStartsWith (pyStrip line) "NUMERO LOTE" then
        match (splitColon line).get? 1 with
        | none => Except.error "IndexError"
        | some v => pure (setK h "NUMERO LOTE" (.s (pyStrip v)))
      else pure h
    let h2 ←
      if pyStartsWith (pyStrip line) "CICLO:" then
        match (splitColon line).get? 1 with
        | none => Except.error "IndexError"
        | some v => pure (setK h1 "CICLO" (.s (rmNl (pyStrip v))))
      else pure h1
    let h3 ←
      if pyStartsWith (pyStrip line) "TEMPERATURA DA AGUA" then
        match (splitColon line).get? 1 with
        | none => Except.error "IndexError"
        | some v =>
          match (pySplit (rmNl (pyStrip v))).get? 0 with
          | none => Except.error "IndexError"
          | some w => pure (setK h2 "TEMPERATURA DA AGUA" (.s w))
      else pure h2
    match splitDash line with
    | [v0, v1, v2] =>
      if pyStrip v2 = "INICIO DE CICLO" then
        let date := splitSlash (pyStrip v1)
        match date.get? 0, date.get? 1, date.get? 2 with
        | some d0, some d1, some d2 =>
          Except.ok (setK (setK h3 "Data:" (.s (d0 ++ "-" ++ d1 ++ "-20" ++ d2)))
            "Hora:" (.s (pyStrip v0 ++ ":00")))
        | _, _, _ => Except.error "IndexError"
      else tds_header_loop rest h3
    | _ => tds_header_loop rest h3

/-- read_header of the Sercon TDS reader: file information first (with the
creation and modification dates stored as formatted strings), then the
header-line scan, then the fallback that, when no start date and time were
found, calls strftime on the stored create_date string, and finally the
strptime conversion of the date field. -/
def read_header_sercon_tds (fname cdate mdate : String)
    (file_content : List String) : Except String (List (String × PyV)) := do
  let info : List (String × PyV) :=
    [("file_name", .s fname), ("create_date", .s cdate), ("change_date", .s mdate)]
  let h ← tds_header_loop file_content info
  let h2 ←
    if !(hasK h "Data:") || !(hasK h "Hora:") then
      match getK h "create_date" with
      | some cd => do
        let ds ← pyStrftime cd "%d-%m-%Y"
        let hs ← pyStrftime cd "%H:%M:%S"
        pure (setK (setK h "Data:" (.s ds)) "Hora:" (.s hs))
      | none => Except.error "KeyError"
    else pure h
  match getK h2 "Data:" with
  | some (.s dstr) => do
    let d ← pyStrptimeDMY dstr
    Except.ok (setK h2 "Data:" (.dt d))
  | some (.dt _) => Except.error "TypeError"
  | none => Except.error "KeyError"

/-- Per-column aggregates as built by the source: rounded maximum,
minimum, mean and optional mode. -/
structure ColStats where
  max : ℚ
  min : ℚ
  media : ℚ
  moda : Option ℚ
deriving DecidableEq

/-- The processed body dictionary seen by the statistics code. -/
structure BodyDict where
  header_columns : List String
  data : Option (List (Nat × List ℚ))
  fase : Option (List (Nat × String))

/-- Python max over a non-empty list (0 is never used: the loop skips
empty columns). -/
def listMaxQ : List ℚ → ℚ
  | [] => 0
  | x :: xs => xs.foldl (fun a b => max a b) x

/-- Python min over a non-empty list. -/
def listMinQ : List ℚ → ℚ
  | [] => 0
  | x :: xs => xs.foldl (fun a b => min a b) x

/-- Python sum. -/
def listSumQ (l : List ℚ) : ℚ := l.foldl (· + ·) 0

/-- statistics.mode of Python 3.8 and later: the most common value, ties
broken by first occurrence in data order; the empty list raises
StatisticsError, caught by the source and turned into an absent mode. -/
def pyMode : List ℚ → Option ℚ
  | [] => none
  | x :: xs =>
    let l := x :: xs
    l.find? (fun c => l.all (fun y => l.count y ≤ l.count c))

/-- Floor of a rational as floor division of numerator by denominator. -/
def qfloor (x : ℚ) : ℤ := x.num.fdiv x.den

/-- Round half to even to an integer, as Python round does. -/
def rheInt (x : ℚ) : ℤ :=
  let f := qfloor x
  let r := x - (f : ℚ)
  if r < 1 / 2 then f
  else if 1 / 2 < r then f + 1
  else if f % 2 = 0 then f else f + 1

/-- Python round(x, 2). -/
def pyRound2 (x : ℚ) : ℚ := (rheInt (x * 100) : ℚ) / 100

/-- The per-column aggregate record assembled by the loop body. -/
def mkColStats (valores : List ℚ) : ColStats :=
  { max := pyRound2 (listMaxQ valores)
    min := pyRound2 (listMinQ valores)
    media := pyRound2 (listSumQ valores / (valores.length : ℚ))
    moda := (pyMode valores).map pyRound2 }

/-- The column comprehension linha index i over all rows: succeeds with
the column values, or fails (IndexError) when any row is too short. -/
def extractCol : List (Nat × List ℚ) → Nat → Option (List ℚ)
  | [], _ => some []
  | r :: rs, i =>
    match r.2.get? (i - 1), extractCol rs i with
    | some v, some vs => some (v :: vs)
    | _, _ => none

/-- The per-column loop: columns are enumerated from index 1; an
IndexError while extracting a column aborts the loop and the accumulated
statistics are returned (the surrounding except handler); empty columns
are skipped. -/
def statsLoop (dados : List (Nat × List ℚ)) :
    Nat → List String → List (String × ColStats) → List (String × ColStats)
  | _, [], acc => acc
  | i, c :: rest, acc =>
    match extractCol dados i with
    | none => acc
    | some valores =>
      if valores.length = 0 then statsLoop dados (i + 1) rest acc
      else statsLoop dados (i + 1) rest (acc ++ [(c, mkColStats valores)])

/-- The phase-timestamp search of the statistics code: the initial label
keeps overwriting its timestamp, the final label breaks at its first
occurrence. -/
def findTsStats (fi ff : String) :
    List (Nat × String) → Option Nat → Option Nat × Option Nat
  | [], ti => (ti, none)
  | f :: rest, ti =>
    if f.2 = fi then findTsStats fi ff rest (some f.1)
    else if f.2 = ff then (ti, some f.1)
    else findTsStats fi ff rest ti

/-- compute_statistics_between_phases: a missing body or data key, an
empty measurement list, a missing fase key or an unresolved phase label
all return the (empty) accumulated statistics through the caught
ValueError; otherwise the rows are filtered to the inclusive phase window
(when both labels were supplied) and the column loop runs. -/
def compute_statistics_between_phases (fase_inicial fase_final : Option String)
    (body : Option BodyDict) : List (String × ColStats) :=
  match body with
  | none => []
  | some bd =>
    match bd.data with
    | none => []
    | some dados0 =>
      if dados0.isEmpty then []
      else
        match fase_inicial, fase_final with
        | some fi, some ff =>
          match bd.fase with
          | none => []
          | some fases =>
            match findTsStats fi ff fases none with
            | (some ti, some tf) =>
              statsLoop (dados0.filter (fun r => ti ≤ r.1 && r.1 ≤ tf)) 1
                (bd.header_columns.drop 1) []
            | _ => []
        | _, _ => statsLoop dados0 1 (bd.header_columns.drop 1) []

/-!
## Lethality Model
Embeds calcular_mortalidade_intervalos of dataobject_fita_digital.py with
its default column indices: a measurement row is (time in minutes,
temperature, ETO mass in kg); float arithmetic is modelled over the real
numbers.  The kinetic constants are the literals of the source:
D 3.8 min, z 50, chamber volume 15 m3, concentration scale 0.0045,
reference concentration 0.00045, reference temperature 50.
-/

/-- ETO masses above 50 kg are treated as instrument error and replaced
by the nominal 0.1 kg before the concentration is derived. -/
noncomputable def clampEto (e : ℝ) : ℝ := if e > 50 then 0.1 else e

/-- The adjusted D value for a temperature and a concentration. -/
noncomputable def D_temp (temp C : ℝ) : ℝ :=
  3.8 * (10 : ℝ) ^ ((50 - temp) / 50) * (10 : ℝ) ^ ((0.00045 - C) / 0.0045)

/-- The interval loop: accumulate exposure minutes, read temperature and
clamped ETO mass from the previous row, derive the concentration over the
15000 litre chamber, adjust D, and emit the surviving population from the
initial N0 and the cumulated log reduction. -/
noncomputable def mortLoop (N0 : ℝ) :
    ℝ → ℝ × ℝ × ℝ → List (ℝ × ℝ × ℝ) → List (ℝ × ℝ)
  | _, _, [] => []
  | acc, prev, d :: rest =>
    let acc2 := acc + (d.1 - prev.1)
    let temp := prev.2.1
    let eto := clampEto prev.2.2
    let C := eto / (15 * 1000)
    let D := D_temp temp C
    (d.1, N0 * (10 : ℝ) ^ (-(acc2 / D))) :: mortLoop N0 acc2 d rest

/-- The population curve over a non-empty measurement window, anchored at
the first timestamp with the initial population. -/
noncomputable def mortalidade_window (N0 : ℝ) (d0 : ℝ × ℝ × ℝ)
    (rest : List (ℝ × ℝ × ℝ)) : List (ℝ × ℝ) :=
  (d0.1, N0) :: mortLoop N0 0 d0 rest

/-- The phase-timestamp search of the mortality code (same shape as the
statistics one, over real-valued timestamps). -/
noncomputable def findTsMort (fi ff : String) :
    List (ℝ × String) → Option ℝ → Option ℝ × Option ℝ
  | [], ti => (ti, none)
  | f :: rest, ti =>
    if f.2 = fi then findTsMort fi ff rest (some f.1)
    else if f.2 = ff then (ti, some f.1)
    else findTsMort fi ff rest ti

/-- calcular_mortalidade_intervalos: locate the phase window, filter the
measurements to it inclusively, and run the interval loop anchored at the
first row; missing phases or an empty window raise ValueError, modelled
as none. -/
noncomputable def calcular_mortalidade_intervalos (N0 : ℝ)
    (fases : List (ℝ × String)) (data : List (ℝ × ℝ × ℝ))
    (fi ff : String) : Option (List (ℝ × ℝ)) :=
  match findTsMort fi ff fases none with
  | (some ta, some tb) =>
    match data.filter (fun r => ta ≤ r.1 && r.1 ≤ tb) with
    | [] => none
    | d0 :: rest => some (mortalidade_window N0 d0 rest)
  | _ => none

lemma rollover_chain (base : Nat) (ts : List Nat) :
    ∀ (d s : Nat), (∀ t ∈ ts, t < 86400) → s < 86400 →
      List.Chain (· ≤ ·) (base * 86400 + s + d * 86400)
        (rolloverTimes (base * 86400 + s + d * 86400) d
          (ts.map (fun t => base * 86400 + t))) := by
  induction ts with
  | nil => intro d s _ _; simp [rolloverTimes]
  | cons t ts ih =>
    intro d s h hs
    have ht : t < 86400 := h t (by simp)
    have hts : ∀ x ∈ ts, x < 86400 := fun x hx => h x (by simp [hx])
    simp only [List.map_cons, rolloverTimes]
    by_cases hc : base * 86400 + t + d * 86400 < base * 86400 + s + d * 86400
    · rw [if_pos hc]
      refine List.Chain.cons (by omega) ?_
      have e1 : base * 86400 + t + d * 86400 + 86400
          = base * 86400 + t + (d + 1) * 86400 := by ring
      rw [e1]
      exact ih (d + 1) t hts ht
    · rw [if_neg hc]
      exact List.Chain.cons (by omega) (ih d t hts ht)

lemma rollover_mod (base : Nat) (ts : List Nat) :
    ∀ (d prev : Nat), (∀ t ∈ ts, t < 86400) →
      List.Forall₂ (fun o t => o % 86400 = t)
        (rolloverTimes prev d (ts.map (fun t => base * 86400 + t))) ts := by
  induction ts with
  | nil => intro d prev _; simp [rolloverTimes]
  | cons t ts ih =>
    intro d prev h
    have ht : t < 86400 := h t (by simp)
    have hts : ∀ x ∈ ts, x < 86400 := fun x hx => h x (by simp [hx])
    simp only [List.map_cons, rolloverTimes]
    by_cases hc : base * 86400 + t + d * 86400 < prev
    · rw [if_pos hc]
      exact List.Forall₂.cons (by omega) (ih (d + 1) _ hts)
    · rw [if_neg hc]
      exact List.Forall₂.cons (by omega) (ih d _ hts)

/-- C1: for every base date and every list of valid times of day (seconds
below 86400), replace_date_in_times returns a non-decreasing list of
absolute timestamps whose entries correspond position by position to the
input times (same length, same order, each output reducing modulo one day
to its input time), however many midnight crossings occur. -/
theorem C1_reconstructed_times_monotone (base : Nat) (times : List Nat)
    (h : ∀ t ∈ times, t < 86400) :
    List.Chain' (· ≤ ·) (replace_date_in_times base times) ∧
      List.Forall₂ (fun o t => o % 86400 = t)
        (replace_date_in_times base times) times := by
  cases times with
  | nil => simp [replace_date_in_times]
  | cons t ts =>
    have ht : t < 86400 := h t (by simp)
    have hts : ∀ x ∈ ts, x < 86400 := fun x hx => h x (by simp [hx])
    constructor
    · show List.Chain (· ≤ ·) (base * 86400 + t)
        (rolloverTimes (base * 86400 + t) 0 (ts.map (fun x => base * 86400 + x)))
      have := rollover_chain base ts 0 t hts ht
      simpa using this
    · exact List.Forall₂.cons
        (show (base * 86400 + t) % 86400 = t by omega)
        (rollover_mod base ts 0 _ hts)

/-- Witness for C1 at a concrete tape crossing midnight twice. -/
theorem C1_witness :
    List.Chain' (· ≤ ·)
      (replace_date_in_times 739191 [82800, 3600, 82800, 3600]) :=
  (C1_reconstructed_times_monotone 739191 [82800, 3600, 82800, 3600]
    (by decide)).1

/-- C2: reconstructing the times 23:58:00, 23:59:30, 00:00:10, 00:01:00
over the base date 2024-01-01 attributes the first two entries to
2024-01-01 and the two entries after the midnight rollover to 2024-01-02,
in order. -/
theorem C2_round_trip_midnight :
    time_to_datetime ["23:58:00", "23:59:30", "00:00:10", "00:01:00"] 2024 1 1 =
      some [dtSecs 2024 1 1 23 58 0, dtSecs 2024 1 1 23 59 30,
            dtSecs 2024 1 2 0 0 10, dtSecs 2024 1 2 0 1 0] := by
  decide

/-- C3: on every body line matched by the LAC210 phase grammar whose label
group has a first whitespace token accepted by float(), the phase-line
processor reports is_phase false and returns the body unchanged, so the
line is never classified as a phase. -/
theorem C3_numeric_tie_break (line : String) (body : BodyRaw)
    (hora g2 t : String) (ts : List String)
    (hm : lac210Match line = some (hora, g2))
    (hs : pySplit g2 = t :: ts)
    (hf : pyFloatAccepts t = true) :
    process_phase_line_lac210 line body = (false, body) := by
  simp only [process_phase_line_lac210, hm, hs, hf, if_true]

/-- Witness for C3 at the line 10:15 followed by 3.2, which the phase
grammar would otherwise match. -/
theorem C3_witness :
    process_phase_line_lac210 "10:15  3.2" ⟨[], [], []⟩ =
      (false, ⟨[], [], []⟩) :=
  C3_numeric_tie_break "10:15  3.2" ⟨[], [], []⟩ "10:15" "3.2" "3.2" []
    (by decide) (by decide) (by decide)

/-- C4 counterexample: the AFR13 measurement processor accepts the line
10:00:00 1.5 under a five-column header and appends a row with a single
numeric value, although the header demands four; the numeric-token count
is not compared with the column count. -/
theorem C4_counterexample :
    ((afr13_process_body_line "10:00:00 1.5"
        ⟨["Hora", "PCI(Bar)", "TCI(Celsius)", "UR(%)", "ETO(Kg)"], [], []⟩).data.map
          (fun r => r.2.length) = [1]) ∧
      ["Hora", "PCI(Bar)", "TCI(Celsius)", "UR(%)", "ETO(Kg)"].length - 1 = 4 ∧
      (1 : Nat) ≠ 4 := by
  refine ⟨by decide, by decide, by decide⟩

/-- C4 amended: every measurement row appended by the AFR13 or Sercon TDS
body-line processor has one numeric value per whitespace token of the line
beyond the time token (TDS additionally demands more than three tokens),
and acceptance is independent of the header column list, which the
processors never consult. -/
theorem C4_row_width_matches_line_tokens :
    (∀ (line : String) (body : BodyRaw) (row : String × List ℚ),
        (afr13_process_body_line line body).data = body.data ++ [row] →
        row.2.length + 1 = (pySplit line).length) ∧
      (∀ (line : String) (body : BodyRaw) (row : String × List ℚ),
        (tds_process_body_line line body).data = body.data ++ [row] →
        row.2.length + 1 = (pySplit line).length ∧ 3 < (pySplit line).length) ∧
      (∀ (line : String) (body : BodyRaw) (hc : List String),
        (afr13_process_body_line line body).data =
          (afr13_process_body_line line
            { body with header_columns := hc }).data) := by
  refine ⟨?_, ?_, ?_⟩
  · intro line body row h
    unfold afr13_process_body_line at h
    by_cases hm : afr13Match line
    · rw [if_pos hm] at h
      cases hsp : pySplit line with
      | nil =>
        rw [hsp] at h
        have := congrArg List.length h
        simp at this
      | cons v0 toks =>
        rw [hsp] at h
        simp only at h
        have h2 := List.append_cancel_left h
        simp only [List.cons.injEq, and_true] at h2
        rw [← h2]
        simp
    · rw [if_neg hm] at h
      have := congrArg List.length h
      simp at this
  · intro line body row h
    unfold tds_process_body_line at h
    by_cases hl : 3 < (pySplit line).length
    · rw [if_pos hl] at h
      cases hsp : pySplit line with
      | nil => rw [hsp] at hl; simp at hl
      | cons v0 toks =>
        rw [hsp] at h hl
        simp only at h
        by_cases hfl : toks.all pyFloatAccepts
        · rw [if_pos hfl] at h
          have h2 := List.append_cancel_left h
          simp only [List.cons.injEq, and_true] at h2
          rw [← h2]
          exact ⟨by simp, hl⟩
        · rw [if_neg hfl] at h
          have := congrArg List.length h
          simp at this
    · rw [if_neg hl] at h
      have := congrArg List.length h
      simp at this
  · intro line body hc
    unfold afr13_process_body_line
    by_cases hm : afr13Match line
    · rw [if_pos hm, if_pos hm]
      cases pySplit line <;> simp
    · rw [if_neg hm, if_neg hm]

/-- Witness for the amended C4 at the accepted AFR13 line with one numeric
token. -/
theorem C4_witness :
    (("10:00:00", ["1.5"].map qOfTok) : String × List ℚ).2.length + 1 =
      (pySplit "10:00:00 1.5").length :=
  C4_row_width_matches_line_tokens.1 "10:00:00 1.5" ⟨[], [], []⟩
    ("10:00:00", ["1.5"].map qOfTok) (by rfl)

/-- C5: get_state classifies by the first keyword match in file order:
a missing phase list yields erro; phases free of all keywords yield
incompleto; if the first phase containing any keyword contains a finalized
keyword the state is concluido, and if it contains an aborted keyword but
no finalized keyword the state is abortado. -/
theorem C5_get_state_classification (fin ab : List String) :
    (get_state fin ab none = "erro") ∧
      (∀ fases : List (Nat × String),
        (∀ f ∈ fases, ∀ k ∈ fin ++ ab, pyInStr k f.2 = false) →
        get_state fin ab (some fases) = "incompleto") ∧
      (∀ (pre : List (Nat × String)) (f : Nat × String)
          (rest : List (Nat × String)),
        (∀ g ∈ pre, ∀ k ∈ fin ++ ab, pyInStr k g.2 = false) →
        (∃ k ∈ fin, pyInStr k f.2 = true) →
        get_state fin ab (some (pre ++ f :: rest)) = "concluido") ∧
      (∀ (pre : List (Nat × String)) (f : Nat × String)
          (rest : List (Nat × String)),
        (∀ g ∈ pre, ∀ k ∈ fin ++ ab, pyInStr k g.2 = false) →
        (∀ k ∈ fin, pyInStr k f.2 = false) →
        (∃ k ∈ ab, pyInStr k f.2 = true) →
        get_state fin ab (some (pre ++ f :: rest)) = "abortado") := by
  have skip : ∀ (pre : List (Nat × String)) (l : List (Nat × String)),
      (∀ g ∈ pre, ∀ k ∈ fin ++ ab, pyInStr k g.2 = false) →
      get_state_loop fin ab (pre ++ l) = get_state_loop fin ab l := by
    intro pre
    induction pre with
    | nil => intro l _; rfl
    | cons g gs ih =>
      intro l h
      have hg : ∀ k ∈ fin ++ ab, pyInStr k g.2 = false :=
        h g (by simp)
      have h1 : fin.any (fun k => pyInStr k g.2) = false := by
        simp only [List.any_eq_false]
        intro k hk
        simp [hg k (by simp [hk])]
      have h2 : ab.any (fun k => pyInStr k g.2) = false := by
        simp only [List.any_eq_false]
        intro k hk
        simp [hg k (by simp [hk])]
      simp only [List.cons_append, get_state_loop, h1, h2, Bool.false_eq_true,
        if_false]
      exact ih l (fun x hx => h x (by simp [hx]))
  refine ⟨rfl, ?_, ?_, ?_⟩
  · intro fases h
    induction fases with
    | nil => rfl
    | cons f fs ih =>
      have hf : ∀ k ∈ fin ++ ab, pyInStr k f.2 = false := h f (by simp)
      have h1 : fin.any (fun k => pyInStr k f.2) = false := by
        simp only [List.any_eq_false]
        intro k hk
        simp [hf k (by simp [hk])]
      have h2 : ab.any (fun k => pyInStr k f.2) = false := by
        simp only [List.any_eq_false]
        intro k hk
        simp [hf k (by simp [hk])]
      show get_state_loop fin ab (f :: fs) = "incompleto"
      simp only [get_state_loop, h1, h2, Bool.false_eq_true, if_false]
      exact ih (fun x hx => h x (by simp [hx]))
  · intro pre f rest hpre hf
    show get_state_loop fin ab (pre ++ f :: rest) = "concluido"
    rw [skip pre _ hpre]
    have h1 : fin.any (fun k => pyInStr k f.2) = true := by
      rcases hf with ⟨k, hk, hin⟩
      exact List.any_eq_true.mpr ⟨k, hk, hin⟩
    simp [get_state_loop, h1]
  · intro pre f rest hpre hfin hab
    show get_state_loop fin ab (pre ++ f :: rest) = "abortado"
    rw [skip pre _ hpre]
    have h1 : fin.any (fun k => pyInStr k f.2) = false := by
      simp only [List.any_eq_false]
      intro k hk
      simp [hfin k hk]
    have h2 : ab.any (fun k => pyInStr k f.2) = true := by
      rcases hab with ⟨k, hk, hin⟩
      exact List.any_eq_true.mpr ⟨k, hk, hin⟩
    simp [get_state_loop, h1, h2]

/-- Witness for C5: an ACONDICIONAMENTO phase followed by CICLO ABORTADO
classifies as abortado under the LAC210 keyword sets. -/
theorem C5_witness :
    get_state_lac210 (some [(1, "ACONDICIONAMENTO"), (2, "CICLO ABORTADO")]) =
      "abortado" := by
  have h := (C5_get_state_classification ["FIM DE CICLO"]
    ["CICLO ABORTADO"]).2.2.2 [(1, "ACONDICIONAMENTO")] (2, "CICLO ABORTADO")
    [] (by decide) (by decide) (by decide)
  exact h

/-- C8 counterexample: with phase A at second 100 and phase B at second
40, the query for the duration from A to B returns the formatted negative
difference instead of failing with an invalid-range error: there is no
chronological-order check. -/
theorem C8_counterexample :
    calcular_tempo_entre_fases (some [(100, "A"), (40, "B")]) "A" "B" =
        "-1:00" ∧
      pyStartsWith "-1:00" "Erro" = false := by
  refine ⟨by decide, by decide⟩

/-- C8 amended: the query uses the first occurrence of each label (later
duplicates are ignored); when both labels occur it returns the difference
of their first timestamps formatted as minutes and seconds, even when the
start lies after the end; when the start label is absent it returns the
caught-ValueError error string rather than raising, and the parsed data is
not modified (the query only reads the phase list). -/
theorem C8_duration_query (fases : List (Int × String))
    (a b : String) :
    (∀ pa pb : Int × String,
      fases.find? (fun f => f.2 = a) = some pa →
      fases.find? (fun f => f.2 = b) = some pb →
      calcular_tempo_entre_fases (some fases) a b =
        fmt02 ((pb.1 - pa.1).fdiv 60) ++ ":" ++ fmt02 ((pb.1 - pa.1).emod 60)) ∧
    ((∀ f ∈ fases, f.2 ≠ a) →
      calcular_tempo_entre_fases (some fases) a b =
        "Erro: Fase(s) \x27" ++ a ++ "\x27 ou \x27" ++ b ++
          "\x27 não encontrada(s).") := by
  constructor
  · intro pa pb ha hb
    simp only [calcular_tempo_entre_fases, ha, hb]
  · intro habs
    have ha : fases.find? (fun f => decide (f.2 = a)) = none := by
      rw [List.find?_eq_none]
      intro f hf
      simp [habs f hf]
    simp only [calcular_tempo_entre_fases, ha]

/-- Witness for C8: with a duplicate A label later in the tape, the first
occurrences of A (second 0) and B (second 60) give one minute. -/
theorem C8_witness :
    calcular_tempo_entre_fases (some [(0, "A"), (60, "B"), (500, "A")])
      "A" "B" = "01:00" := by
  have h := (C8_duration_query [(0, "A"), (60, "B"), (500, "A")] "A" "B").1
    (0, "A") (60, "B") (by decide) (by decide)
  exact h.trans (by decide)

/-- C6 evaluation at the failing input: a TDS header without any INICIO DE
CICLO marker does not return a header record; the fallback branch calls
strftime on the create_date value, which read_files_information stored as
a formatted string, and the AttributeError propagates out of read_header
instead of the documented non-fatal recovery. -/
theorem C6_missing_date_fallback_raises :
    read_header_sercon_tds "VAPOR01_0001" "01-02-2024 10:00:00"
        "01-02-2024 11:00:00" ["AUTOCLAVE SERCON", "PROGRAMA 3"] =
      Except.error "AttributeError: str object has no attribute strftime" := by
  rfl

lemma qfloor_intCast (n : ℤ) : qfloor (n : ℚ) = n := by
  simp [qfloor, Rat.num_intCast, Rat.den_intCast, Int.fdiv_one]

lemma pyRound2_exact (x : ℚ) (n : ℤ) (h : x * 100 = (n : ℚ)) :
    pyRound2 x = (n : ℚ) / 100 := by
  unfold pyRound2 rheInt
  rw [h, qfloor_intCast]
  norm_num

lemma pyMode_no_repeat (x : ℚ) (xs : List ℚ)
    (h : ∀ y ∈ x :: xs, (x :: xs).count y = 1) :
    pyMode (x :: xs) = some x := by
  simp only [pyMode]
  apply List.find?_cons_of_pos
  simp only [List.all_eq_true, decide_eq_true_eq]
  intro y hy
  rw [h y hy, h x (by simp)]

lemma extract_some (dados : List (Nat × List ℚ)) (i : Nat) (hi : 1 ≤ i)
    (h : ∀ r ∈ dados, i ≤ r.2.length) :
    ∃ v, extractCol dados i = some v ∧ v.length = dados.length := by
  induction dados with
  | nil => exact ⟨[], rfl, rfl⟩
  | cons r rs ih =>
    have hr : i ≤ r.2.length := h r (by simp)
    obtain ⟨v, hv, hlen⟩ := ih (fun x hx => h x (by simp [hx]))
    have hg : i - 1 < r.2.length := by omega
    have hw : r.2.get? (i - 1) = some (r.2.get ⟨i - 1, hg⟩) :=
      List.get?_eq_get hg
    refine ⟨r.2.get ⟨i - 1, hg⟩ :: v, ?_, by simp [hlen]⟩
    simp only [extractCol, hw, hv]

lemma extract_none (dados : List (Nat × List ℚ)) (i : Nat)
    (h : ∃ r ∈ dados, r.2.length < i) :
    extractCol dados i = none := by
  induction dados with
  | nil => simp at h
  | cons r rs ih =>
    rcases h with ⟨q, hq, hql⟩
    rcases List.mem_cons.mp hq with hq1 | hq2
    · have : r.2.get? (i - 1) = none := by
        rw [List.get?_eq_none]
        subst hq1
        omega
      simp only [extractCol, this]
    · simp only [extractCol, ih ⟨q, hq2, hql⟩]
      cases r.2.get? (i - 1) <;> rfl

lemma statsLoop_keys (dados : List (Nat × List ℚ)) (j : Nat)
    (hne : dados ≠ [])
    (hOk : ∀ r ∈ dados, j ≤ r.2.length)
    (hBad : ∃ r ∈ dados, r.2.length = j) :
    ∀ (cols : List String) (i : Nat) (acc : List (String × ColStats)),
      1 ≤ i →
      (statsLoop dados i cols acc).map Prod.fst =
        acc.map Prod.fst ++ cols.take (j + 1 - i) := by
  intro cols
  induction cols with
  | nil => intro i acc _; simp [statsLoop]
  | cons c rest ih =>
    intro i acc hi
    by_cases hij : i ≤ j
    · obtain ⟨v, hv, hlen⟩ :=
        extract_some dados i hi (fun r hr => le_trans hij (hOk r hr))
      have hvne : ¬ v.length = 0 := by
        rw [hlen]
        intro h0
        exact hne (List.length_eq_zero.mp h0)
      simp only [statsLoop, hv, if_neg hvne]
      rw [ih (i + 1) (acc ++ [(c, mkColStats v)]) (by omega)]
      have e1 : j + 1 - i = (j - i) + 1 := by omega
      have e2 : j + 1 - (i + 1) = j - i := by omega
      rw [e1, e2, List.take_succ_cons]
      simp
    · obtain ⟨r, hr, hrl⟩ := hBad
      have hx : extractCol dados i = none :=
        extract_none dados i ⟨r, hr, by omega⟩
      simp only [statsLoop, hx]
      have e0 : j + 1 - i = 0 := by omega
      rw [e0]
      simp

lemma findTs_absent (fi ff : String) (fases : List (Nat × String))
    (h : ∀ f ∈ fases, f.2 ≠ fi) :
    (findTsStats fi ff fases none).1 = none := by
  induction fases with
  | nil => rfl
  | cons f rest ih =>
    have hf : ¬ f.2 = fi := h f (by simp)
    simp only [findTsStats, if_neg hf]
    by_cases hb : f.2 = ff
    · rw [if_pos hb]
    · rw [if_neg hb]
      exact ih (fun x hx => h x (by simp [hx]))

/-- C7 counterexample: on a column whose values 10, 20, 30 contain no
repeated value, the statistics report moda 10.0 (the first value, by the
first-encountered tie-break of statistics.mode on Python 3.8 and later,
under which Odoo 16 runs), not an absent mode. -/
theorem C7_counterexample :
    compute_statistics_between_phases none none
        (some ⟨["Hora", "X"], some [(0, [10]), (1, [20]), (2, [30])], none⟩) =
      [("X", ⟨30, 10, 20, some 10⟩)] ∧
    some (10 : ℚ) ≠ (none : Option ℚ) := by
  constructor
  · have hc : compute_statistics_between_phases none none
        (some ⟨["Hora", "X"], some [(0, [10]), (1, [20]), (2, [30])], none⟩) =
        [("X", mkColStats [10, 20, 30])] := by rfl
    rw [hc]
    have hs : mkColStats [(10 : ℚ), 20, 30] = ⟨30, 10, 20, some 10⟩ := by
      simp only [mkColStats]
      have hmax : listMaxQ [(10 : ℚ), 20, 30] = 30 := by rfl
      have hmin : listMinQ [(10 : ℚ), 20, 30] = 10 := by rfl
      have hsum : listSumQ [(10 : ℚ), 20, 30] = 60 := by norm_num [listSumQ]
      have hmode : pyMode [(10 : ℚ), 20, 30] = some 10 := by rfl
      rw [hmax, hmin, hsum, hmode, Option.map_some']
      rw [pyRound2_exact 30 3000 (by norm_num),
        pyRound2_exact 10 1000 (by norm_num)]
      rw [show ([(10 : ℚ), 20, 30].length : ℚ) = 3 by norm_num]
      rw [pyRound2_exact (60 / 3) 2000 (by norm_num)]
      simp only [ColStats.mk.injEq, Option.some.injEq]
      norm_num
    rw [hs]
  · simp

/-- C7 amended: the mode is computed by exact value equality as the most
common value with ties broken by first occurrence, so a column without any
repeated value reports its first value as moda (never an error); on the
window values 10, 20, 20, 30 between phases A and B the statistics are
min 10, max 30, mean 20 and moda 20. -/
theorem C7_mode_semantics :
    (∀ (x : ℚ) (xs : List ℚ),
        (∀ y ∈ x :: xs, (x :: xs).count y = 1) →
        pyMode (x :: xs) = some x) ∧
      compute_statistics_between_phases (some "A") (some "B")
          (some ⟨["Hora", "X"],
            some [(0, [10]), (1, [20]), (2, [20]), (3, [30])],
            some [(0, "A"), (3, "B")]⟩) =
        [("X", ⟨30, 10, 20, some 20⟩)] := by
  constructor
  · exact pyMode_no_repeat
  · have hc : compute_statistics_between_phases (some "A") (some "B")
        (some ⟨["Hora", "X"],
          some [(0, [10]), (1, [20]), (2, [20]), (3, [30])],
          some [(0, "A"), (3, "B")]⟩) =
        [("X", mkColStats [10, 20, 20, 30])] := by rfl
    rw [hc]
    have hs : mkColStats [(10 : ℚ), 20, 20, 30] = ⟨30, 10, 20, some 20⟩ := by
      simp only [mkColStats]
      have hmax : listMaxQ [(10 : ℚ), 20, 20, 30] = 30 := by rfl
      have hmin : listMinQ [(10 : ℚ), 20, 20, 30] = 10 := by rfl
      have hsum : listSumQ [(10 : ℚ), 20, 20, 30] = 80 := by norm_num [listSumQ]
      have hmode : pyMode [(10 : ℚ), 20, 20, 30] = some 20 := by rfl
      rw [hmax, hmin, hsum, hmode, Option.map_some']
      rw [pyRound2_exact 30 3000 (by norm_num),
        pyRound2_exact 10 1000 (by norm_num)]
      rw [show ([(10 : ℚ), 20, 20, 30].length : ℚ) = 4 by norm_num]
      rw [pyRound2_exact (80 / 4) 2000 (by norm_num),
        pyRound2_exact 20 2000 (by norm_num)]
      norm_num
    rw [hs]

/-- Witness for the amended C7: the repeat-free column 10, 20, 30 has mode
10, its first value. -/
theorem C7_witness : pyMode [(10 : ℚ), 20, 30] = some 10 :=
  C7_mode_semantics.1 10 [20, 30] (by decide)

/-- C10: compute_statistics_between_phases never lets an error escape: a
missing body, a missing data key, an empty measurement list and an
unresolvable phase label all return the empty statistics, and when some
row is shorter than the header column list the loop stops at the
IndexError and returns exactly the statistics of the columns every row
covers (j columns when the shortest row has j values). -/
theorem C10_statistics_never_raise :
    (∀ fi ff, compute_statistics_between_phases fi ff none = []) ∧
      (∀ fi ff hc fase,
        compute_statistics_between_phases fi ff (some ⟨hc, none, fase⟩) = []) ∧
      (∀ fi ff hc fase,
        compute_statistics_between_phases fi ff (some ⟨hc, some [], fase⟩) = []) ∧
      (∀ (fi ff : String) (hc : List String) (dados : List (Nat × List ℚ))
          (fases : List (Nat × String)), dados ≠ [] →
        (∀ f ∈ fases, f.2 ≠ fi) →
        compute_statistics_between_phases (some fi) (some ff)
          (some ⟨hc, some dados, some fases⟩) = []) ∧
      (∀ (hc : List String) (fase : Option (List (Nat × String)))
          (dados : List (Nat × List ℚ)) (j : Nat), dados ≠ [] →
        (∀ r ∈ dados, j ≤ r.2.length) → (∃ r ∈ dados, r.2.length = j) →
        (compute_statistics_between_phases none none
            (some ⟨hc, some dados, fase⟩)).map Prod.fst =
          (hc.drop 1).take j) := by
  refine ⟨fun fi ff => rfl, fun fi ff hc fase => rfl, fun fi ff hc fase => rfl,
    ?_, ?_⟩
  · intro fi ff hc dados fases hne habs
    obtain ⟨d, ds, rfl⟩ : ∃ d ds, dados = d :: ds := by
      cases dados with
      | nil => exact absurd rfl hne
      | cons d ds => exact ⟨d, ds, rfl⟩
    have h1 := findTs_absent fi ff fases habs
    rcases hts : findTsStats fi ff fases none with ⟨t1, t2⟩
    rw [hts] at h1
    simp only at h1
    subst h1
    simp only [compute_statistics_between_phases, List.isEmpty_cons,
      Bool.false_eq_true, if_false, hts]
  · intro hc fase dados j hne hOk hBad
    obtain ⟨d, ds, rfl⟩ : ∃ d ds, dados = d :: ds := by
      cases dados with
      | nil => exact absurd rfl hne
      | cons d ds => exact ⟨d, ds, rfl⟩
    simp only [compute_statistics_between_phases, List.isEmpty_cons,
      Bool.false_eq_true, if_false]
    rw [statsLoop_keys (d :: ds) j hne hOk hBad (hc.drop 1) 1 [] (by omega)]
    simp

/-- Witness for C10: a body with header columns Hora, A, B, C whose rows
have two and one values returns statistics for column A only. -/
theorem C10_witness :
    (compute_statistics_between_phases none none
        (some ⟨["Hora", "A", "B", "C"], some [(0, [1, 2]), (1, [3])],
          none⟩)).map Prod.fst = ["A"] := by
  have h := C10_statistics_never_raise.2.2.2.2 ["Hora", "A", "B", "C"] none
    [(0, [1, 2]), (1, [3])] 1 (by simp)
    (by intro r hr; fin_cases hr <;> simp)
    ⟨(1, [3]), by simp, by simp⟩
  exact h.trans (by rfl)

lemma clampEto_small : clampEto 6.75 = (6.75 : ℝ) := by
  unfold clampEto
  rw [if_neg]
  norm_num

lemma D_temp_ref : D_temp 50 (6.75 / (15 * 1000)) = (3.8 : ℝ) := by
  unfold D_temp
  have h1 : ((50 : ℝ) - 50) / 50 = 0 := by norm_num
  have h2 : ((0.00045 : ℝ) - 6.75 / (15 * 1000)) / 0.0045 = 0 := by norm_num
  rw [h1, h2, Real.rpow_zero]
  norm_num

lemma mortLoop_const (N0 : ℝ) (rest : List (ℝ × ℝ × ℝ)) :
    ∀ (prev : ℝ × ℝ × ℝ) (acc : ℝ),
      (∀ p ∈ prev :: rest, p.2.1 = 50 ∧ p.2.2 = 6.75) →
      mortLoop N0 acc prev rest =
        rest.map (fun d =>
          (d.1, N0 * (10 : ℝ) ^ (-((acc + (d.1 - prev.1)) / 3.8)))) := by
  induction rest with
  | nil => intro prev acc _; rfl
  | cons d rest ih =>
    intro prev acc h
    have hp := h prev (by simp)
    have hd : ∀ p ∈ d :: rest, p.2.1 = 50 ∧ p.2.2 = 6.75 :=
      fun p hp2 => h p (by simp [List.mem_cons.mp hp2])
    simp only [mortLoop, hp.1, hp.2, clampEto_small, D_temp_ref]
    rw [ih d (acc + (d.1 - prev.1)) hd]
    simp only [List.map_cons]
    refine congrArg _ ?_
    have hfun : (fun e : ℝ × ℝ × ℝ =>
          (e.1, N0 * (10 : ℝ) ^ (-((acc + (d.1 - prev.1) + (e.1 - d.1)) / 3.8)))) =
        (fun e : ℝ × ℝ × ℝ =>
          (e.1, N0 * (10 : ℝ) ^ (-((acc + (e.1 - prev.1)) / 3.8)))) := by
      funext e
      have he : -((acc + (d.1 - prev.1) + (e.1 - d.1)) / 3.8) =
          -((acc + (e.1 - prev.1)) / 3.8) := by ring
      rw [he]
    rw [hfun]

/-- C9: over a measurement window whose temperature column constantly
equals the reference 50 and whose ETO column constantly holds the mass
6.75 kg giving the reference concentration 0.00045 kg per litre-scaled
volume, with consecutive timestamps a constant positive delta apart, the
lethality model yields the closed form N0 times ten to the minus
cumulative-minutes over 3.8 at every point, is anchored at the first
timestamp with N0, and is strictly decreasing; raw masses above 50 kg are
replaced by the nominal 0.1 before the concentration is derived. -/
theorem C9_lethality_closed_form (N0 δ : ℝ) (d0 : ℝ × ℝ × ℝ)
    (rest : List (ℝ × ℝ × ℝ))
    (hN0 : 0 < N0) (hδ : 0 < δ)
    (hconst : ∀ p ∈ d0 :: rest, p.2.1 = 50 ∧ p.2.2 = 6.75)
    (hchain : List.Chain' (fun a b : ℝ × ℝ × ℝ => b.1 = a.1 + δ) (d0 :: rest)) :
    mortalidade_window N0 d0 rest =
        (d0 :: rest).map
          (fun d => (d.1, N0 * (10 : ℝ) ^ (-((d.1 - d0.1) / 3.8)))) ∧
      List.Chain' (fun p q : ℝ × ℝ => q.2 < p.2)
        (mortalidade_window N0 d0 rest) ∧
      (mortalidade_window N0 d0 rest).head? = some (d0.1, N0) ∧
      (∀ e : ℝ, 50 < e → clampEto e = 0.1) := by
  have hform : mortalidade_window N0 d0 rest =
      (d0 :: rest).map
        (fun d => (d.1, N0 * (10 : ℝ) ^ (-((d.1 - d0.1) / 3.8)))) := by
    unfold mortalidade_window
    rw [mortLoop_const N0 rest d0 0 hconst]
    simp only [List.map_cons]
    have hh : (d0.1, N0) =
        (d0.1, N0 * (10 : ℝ) ^ (-((d0.1 - d0.1) / 3.8))) := by
      have : -((d0.1 - d0.1) / 3.8) = (0 : ℝ) := by ring
      rw [this, Real.rpow_zero, mul_one]
    rw [hh]
    refine congrArg _ ?_
    have hfun : (fun d : ℝ × ℝ × ℝ =>
          (d.1, N0 * (10 : ℝ) ^ (-((0 + (d.1 - d0.1)) / 3.8)))) =
        (fun d : ℝ × ℝ × ℝ =>
          (d.1, N0 * (10 : ℝ) ^ (-((d.1 - d0.1) / 3.8)))) := by
      funext e
      have he : -((0 + (e.1 - d0.1)) / 3.8) = -((e.1 - d0.1) / 3.8) := by ring
      rw [he]
    rw [hfun]
  refine ⟨hform, ?_, ?_, ?_⟩
  · rw [hform]
    rw [List.chain'_map]
    refine hchain.imp ?_
    intro a b hab
    show N0 * (10 : ℝ) ^ (-((b.1 - d0.1) / 3.8)) <
      N0 * (10 : ℝ) ^ (-((a.1 - d0.1) / 3.8))
    have hlt : a.1 - d0.1 < b.1 - d0.1 := by rw [hab]; linarith
    have hexp : -((b.1 - d0.1) / 3.8) < -((a.1 - d0.1) / 3.8) := by
      have := (div_lt_div_iff_of_pos_right (show (0 : ℝ) < 3.8 by norm_num)).mpr hlt
      linarith
    have hpow := (Real.rpow_lt_rpow_left_iff
      (show (1 : ℝ) < 10 by norm_num)).mpr hexp
    exact mul_lt_mul_of_pos_left hpow hN0
  · rfl
  · intro e he
    unfold clampEto
    rw [if_pos he]

/-- Witness for C9 on three rows at reference conditions one minute
apart. -/
theorem C9_witness :
    List.Chain' (fun p q : ℝ × ℝ => q.2 < p.2)
      (mortalidade_window 1 (0, 50, 6.75) [(1, 50, 6.75), (2, 50, 6.75)]) := by
  have h := C9_lethality_closed_form 1 1 (0, 50, 6.75)
    [(1, 50, 6.75), (2, 50, 6.75)]
    (by norm_num) (by norm_num)
    (by intro p hp; fin_cases hp <;> exact ⟨rfl, rfl⟩)
    (by
      refine List.chain'_cons.mpr ⟨by norm_num, ?_⟩
      refine List.chain'_cons.mpr ⟨by norm_num, ?_⟩
      exact List.chain'_singleton _)
  exact h.2.1

end FitaDigital
